import Mathlib

/-!
Shallow embedding of the LICD dynamic I2C address-assignment library
(`licd.h` / `licd.cpp`, with the refactored copies under `src/`).

The embedding models:
* the wire-helper primitives (`WireHelper::wait`, `WireHelper::read`),
* the master side (`LicDeviceManager`: `DoPollDevice`, `RegisterDevice`,
  `PollDevice`) as pure functions of the environment: the sequence of
  `Wire.endTransmission` results for the probe attempts, and the byte
  buffer the slave has queued for the identity pull,
* the slave side (`LicDevice` with its `ReceiveAddress` handler) as a
  state machine driven by inbound command buffers.

Bus activity performed by the master is recorded as a `BusEvent` trace so
that statements about what is or is not transmitted can be made precise.
Machine integers are modelled as `Nat` with explicit truncation where the
source converts `int` to `uint8_t`. Loops are modelled with explicit fuel;
a `none` result of a fuel-indexed function for every fuel value witnesses
non-termination of the corresponding source loop.
-/

namespace LICD

/-! Constants from `licd.h` / `licd_globals.h` / `licd_commands.h`. -/

def LICD_LISTENER_ADDRESS : ℕ := 0x01

def LICD_ADDRESS_SPACE : ℕ := 0x02

def LICD_DEVICE_COUNT : ℕ := 126

def LICD_COMMAND_UUID : ℕ := 0x01

def LICD_COMMAND_ASSIGN : ℕ := 0x02

def LICD_COMMAND_RETRY : ℕ := 0x03

/-- Identity record from `licd.h`: `struct LicDeviceHeader { uint32_t uuid = 0; uint32_t flags = 0; }`.
Fields are 32-bit unsigned integers, modelled as `Nat`. -/
structure LicDeviceHeader where
  uuid : ℕ
  flags : ℕ
deriving DecidableEq, Repr

/-- Zero-initialised header, the value of a freshly constructed `LicDeviceHeader`. -/
def emptyHeader : LicDeviceHeader := ⟨0, 0⟩

/-! ## WireHelper

`WireHelper::wait<T>` busy-polls `Wire.available()` until at least
`sizeof(T)` bytes are available or more than `timeout` ms have elapsed,
returning `true` on timeout.  We model time in discrete 1 ms steps:
`avail t` is the number of bytes available at step `t`.  The fuel
argument bounds the number of loop iterations; `timeout + 2` iterations
always suffice to reach the `millis() - start_time > timeout` branch. -/
def wireWaitAux (avail : ℕ → ℕ) (size timeout : ℕ) : ℕ → ℕ → Bool
  | _, 0 => true
  | t, fuel + 1 =>
    if avail t < size then
      if timeout < t then true else wireWaitAux avail size timeout (t + 1) fuel
    else
      false

/-- Top-level `WireHelper::wait<T>( timeout )`: start at time 0 with enough fuel
to reach the timeout branch.  Returns `true` when the wait timed out. -/
def wireWait (avail : ℕ → ℕ) (size timeout : ℕ) : Bool :=
  wireWaitAux avail size timeout 0 (timeout + 2)

/-- Byte-copy loop of `WireHelper::read`: `while ( Wire.available( ) && data_offset < data_size )`
copies one byte per iteration from the receive buffer.  Returns the bytes copied. -/
def readLoop (buf : List ℕ) (dataSize : ℕ) : List ℕ :=
  match buf, dataSize with
  | [], _ => []
  | _, 0 => []
  | b :: rest, n + 1 => b :: readLoop rest n

/-- Embedding of `WireHelper::read<T>( data, count, timeout )` from `licd.h`
(lines 59-72): abort returning `false` when `count == 0` or the wait for
`sizeof(T)` bytes times out; otherwise copy up to `sizeof(T) * count` bytes
and return whether exactly that many were copied.  The slave has already
queued its response bytes (`buf`) when the master reads, so availability is
constant at `buf.length`. -/
def WireHelper_read (buf : List ℕ) (count elemSize timeout : ℕ) : Bool :=
  if count = 0 || wireWait (fun _ => buf.length) elemSize timeout then
    false
  else
    (readLoop buf (elemSize * count)).length == elemSize * count

/-! Basic facts about the wire helper. -/

theorem wireWaitAux_const_lt (n size timeout : ℕ) (h : n < size) :
    ∀ fuel t, wireWaitAux (fun _ => n) size timeout t fuel = true := by
  intro fuel
  induction fuel with
  | zero => intro t; rfl
  | succ fuel ih =>
      intro t
      simp only [wireWaitAux, h, if_true]
      by_cases ht : timeout < t
      · simp [ht]
      · simp [ht, ih]

theorem wireWaitAux_const_ge (n size timeout : ℕ) (h : size ≤ n) :
    ∀ fuel t, wireWaitAux (fun _ => n) size timeout t (fuel + 1) = false := by
  intro fuel t
  have : ¬ n < size := not_lt.mpr h
  simp [wireWaitAux, this]

theorem wireWait_const (n size timeout : ℕ) :
    wireWait (fun _ => n) size timeout = decide (n < size) := by
  by_cases h : n < size
  · simp [wireWait, wireWaitAux_const_lt n size timeout h, h]
  · have h' : size ≤ n := not_lt.mp h
    have : timeout + 2 = (timeout + 1) + 1 := rfl
    simp [wireWait, this, wireWaitAux_const_ge n size timeout h', h]

theorem readLoop_eq_take (buf : List ℕ) : ∀ dataSize, readLoop buf dataSize = buf.take dataSize := by
  induction buf with
  | nil => intro dataSize; cases dataSize <;> rfl
  | cons b rest ih =>
      intro dataSize
      cases dataSize with
      | zero => rfl
      | succ n => simp [readLoop, List.take, ih]

/-- Helper characterisation of the identity pull: reading one 8-byte record
succeeds exactly when at least 8 bytes are available, for any timeout. -/
theorem WireHelper_read_eight_iff (buf : List ℕ) (timeout : ℕ) :
    WireHelper_read buf 1 8 timeout = true ↔ 8 ≤ buf.length := by
  unfold WireHelper_read
  rw [wireWait_const]
  by_cases h : buf.length < 8
  · simp [h]
  · simp [h, readLoop_eq_take, List.length_take]

/-! ## Master side: LicDeviceManager

State and operations from `licd.h` / `licd.cpp` (`LicDeviceManager`).
The device table `m_devices[ LICD_DEVICE_COUNT ]` is a list of 126
zero-initialised headers. -/

/-- Registry type: the fixed `m_devices` array, slot `i` at list index `i`. -/
abbrev DeviceRegistry := List LicDeviceHeader

/-- Value of `m_devices` right after the constructor ran (`m_devices{ }` zero-initialises). -/
def initRegistry : DeviceRegistry := List.replicate LICD_DEVICE_COUNT emptyHeader

/-- Configuration and state of `LicDeviceManager` (constructor parameters plus the device table). -/
structure LicDeviceManager where
  m_retry_count : ℕ
  m_retry_delay : ℕ
  m_wait_delay : ℕ
  m_devices : DeviceRegistry
deriving DecidableEq, Repr

/-- Constructor `LicDeviceManager( retry_count, retry_delay, wait_delay )`. -/
def mkManager (retry_count retry_delay wait_delay : ℕ) : LicDeviceManager :=
  ⟨retry_count, retry_delay, wait_delay, initRegistry⟩

/-- Manager built with the default constructor arguments (5, 30, 15). -/
def defaultManager : LicDeviceManager := mkManager 5 30 15

/-- One observable bus action performed by the master during a poll cycle. -/
inductive BusEvent where
  | txn (target : ℕ) (payload : List ℕ)
  | delayMs (ms : ℕ)
  | requestFrom (target count : ℕ)
deriving DecidableEq, Repr

/-- Decode of `memcpy`-style little-endian reinterpretation of four raw bytes
as one `uint32_t`. -/
def le32 (b0 b1 b2 b3 : ℕ) : ℕ := b0 + 256 * (b1 + 256 * (b2 + 256 * b3))

/-- Raw 8-byte buffer reinterpreted as a `LicDeviceHeader` (`WireHelper::read`
writes the received bytes over the `{uuid, flags}` fields in native
little-endian layout). -/
def decodeHeader (bytes : List ℕ) : LicDeviceHeader :=
  { uuid := le32 (bytes.getD 0 0) (bytes.getD 1 0) (bytes.getD 2 0) (bytes.getD 3 0)
    flags := le32 (bytes.getD 4 0) (bytes.getD 5 0) (bytes.getD 6 0) (bytes.getD 7 0) }

/-- Allocation loop of `LicDeviceManager::RegisterDevice` (`licd.cpp` lines 79-88):

    uint8_t address_offset = 0;
    while ( ( new_address == LICD_LISTENER_ADDRESS ) && ( address_offset < LICD_DEVICE_COUNT ) ) {
        if ( m_devices[ address_offset ].uuid > 0 )
            continue;
        new_address = ( LICD_ADDRESS_SPACE + address_offset );
        memcpy( &m_devices[ address_offset ], &header, sizeof( LicDeviceHeader ) );
    }

The loop body never modifies `address_offset` (the `continue` jumps straight
back to the condition), which the fuel parameter makes visible: `none` for
every fuel value means the source loop never terminates. -/
def registerScanAux (header : LicDeviceHeader) (devices : DeviceRegistry)
    (new_address address_offset : ℕ) : ℕ → Option (ℕ × DeviceRegistry)
  | 0 => none
  | fuel + 1 =>
    if new_address = LICD_LISTENER_ADDRESS ∧ address_offset < LICD_DEVICE_COUNT then
      if 0 < (devices.getD address_offset emptyHeader).uuid then
        registerScanAux header devices new_address address_offset fuel
      else
        registerScanAux header (devices.set address_offset header)
          (LICD_ADDRESS_SPACE + address_offset) address_offset fuel
    else
      some (new_address, devices)

/-- Bus actions `RegisterDevice` performs before attempting the read:
`delay( m_wait_delay ); Wire.requestFrom( LICD_LISTENER_ADDRESS, sizeof( LicDeviceHeader ) ); delay( m_wait_delay );`. -/
def pullEvents (mgr : LicDeviceManager) : List BusEvent :=
  [BusEvent.delayMs mgr.m_wait_delay,
   BusEvent.requestFrom LICD_LISTENER_ADDRESS 8,
   BusEvent.delayMs mgr.m_wait_delay]

/-- Embedding of `LicDeviceManager::RegisterDevice` (`licd.cpp` lines 68-93).
`buf` is the byte buffer the probed slave has queued for the identity pull.
Returns the new address, the updated registry and the bus events, or `none`
when the allocation loop does not terminate within `fuel` iterations. -/
def RegisterDevice (mgr : LicDeviceManager) (buf : List ℕ) (fuel : ℕ) :
    Option (ℕ × DeviceRegistry × List BusEvent) :=
  if WireHelper_read buf 1 8 150 then
    match registerScanAux (decodeHeader (readLoop buf 8)) mgr.m_devices
        LICD_LISTENER_ADDRESS 0 fuel with
    | none => none
    | some (new_address, devs) => some (new_address, devs, pullEvents mgr)
  else
    some (LICD_LISTENER_ADDRESS, mgr.m_devices, pullEvents mgr)

/-- Probe loop of `LicDeviceManager::DoPollDevice` (`licd.cpp` lines 44-66):

    uint32_t error = 5;
    for ( uint32_t retry_count = 0; error > 0 && retry_count < m_retry_count; retry_count++ ) {
        Wire.beginTransmission( LICD_LISTENER_ADDRESS );
        Wire.write( LICD_COMMAND_UUID );
        error = Wire.endTransmission( );
        delay( m_retry_delay );
    }

`results i` is the `Wire.endTransmission` value of attempt `i`; the fuel is
`m_retry_count - retry_count`, so the loop bound is exact.  Returns the final
`error`, the index after the last attempt, and the events of the attempts
made. -/
def doPollAux (results : ℕ → ℕ) (rd : ℕ) (error i : ℕ) : ℕ → ℕ × ℕ × List BusEvent
  | 0 => (error, i, [])
  | fuel + 1 =>
    if 0 < error then
      let out := doPollAux results rd (results i) (i + 1) fuel
      (out.1, out.2.1,
        BusEvent.txn LICD_LISTENER_ADDRESS [LICD_COMMAND_UUID] :: BusEvent.delayMs rd :: out.2.2)
    else
      (error, i, [])

/-- Embedding of `LicDeviceManager::DoPollDevice`: `return ( error == 0 );`. -/
def DoPollDevice (mgr : LicDeviceManager) (results : ℕ → ℕ) : Bool :=
  (doPollAux results mgr.m_retry_delay 5 0 mgr.m_retry_count).1 == 0

/-- Number of probe attempts actually performed by `DoPollDevice`. -/
def doPollAttempts (mgr : LicDeviceManager) (results : ℕ → ℕ) : ℕ :=
  (doPollAux results mgr.m_retry_delay 5 0 mgr.m_retry_count).2.1

/-- Probe bus events actually emitted by `DoPollDevice`. -/
def doPollEvents (mgr : LicDeviceManager) (results : ℕ → ℕ) : List BusEvent :=
  (doPollAux results mgr.m_retry_delay 5 0 mgr.m_retry_count).2.2

/-- Final response transaction of `LicDeviceManager::PollDevice` (`licd.cpp`
lines 32-40): ASSIGN plus the address byte when `new_address > LICD_LISTENER_ADDRESS`,
otherwise RETRY with no payload. -/
def respondTxn (new_address : ℕ) : BusEvent :=
  if LICD_LISTENER_ADDRESS < new_address then
    BusEvent.txn LICD_LISTENER_ADDRESS [LICD_COMMAND_ASSIGN, new_address]
  else
    BusEvent.txn LICD_LISTENER_ADDRESS [LICD_COMMAND_RETRY]

/-- Embedding of `LicDeviceManager::PollDevice` (`licd.cpp` lines 26-41).
`none` means the cycle never returns (the allocation loop inside
`RegisterDevice` diverged); otherwise the updated manager and the full bus
event trace of the cycle are returned. -/
def PollDevice (mgr : LicDeviceManager) (results : ℕ → ℕ) (buf : List ℕ) (fuel : ℕ) :
    Option (LicDeviceManager × List BusEvent) :=
  if DoPollDevice mgr results then
    match RegisterDevice mgr buf fuel with
    | none => none
    | some (new_address, devs, ev) =>
        some ({ mgr with m_devices := devs },
          doPollEvents mgr results ++ ev ++ [respondTxn new_address])
  else
    some (mgr, doPollEvents mgr results)

/-! ## Slave side: LicDevice

`LicDevice` (`licd.cpp` lines 99-156).  The constructor binds the transport
to the listener address with the internal `ReceiveAddress` handler and a
null request handler (`Create( ReceiveAddress, nullptr )`); the ASSIGN
branch of `ReceiveAddress` rebinds to the new address with the
caller-supplied handlers (`Create( m_receive, m_request )`). -/

/-- Which receive/request handlers `Wire` is currently bound to. -/
inductive BoundHandlers where
  | internalHandlers
  | userHandlers
deriving DecidableEq, Repr

/-- State of one slave device together with its transport binding:
`m_address` is the `uint8_t` member, `bound` the address passed to the last
`Wire.begin( m_address )`, `handlers` which handler pair the last `Create`
installed. -/
structure LicDevice where
  m_address : ℕ
  bound : ℕ
  handlers : BoundHandlers
deriving DecidableEq, Repr

/-- State right after the `LicDevice` constructor: listener address,
transport bound to it with the internal `ReceiveAddress` handler. -/
def LicDevice.init : LicDevice :=
  ⟨LICD_LISTENER_ADDRESS, LICD_LISTENER_ADDRESS, BoundHandlers.internalHandlers⟩

/-- Embedding of `LicDevice::GetIsValid`: `return ( m_address > LICD_LISTENER_ADDRESS );`. -/
def LicDevice.GetIsValid (dev : LicDevice) : Bool :=
  LICD_LISTENER_ADDRESS < dev.m_address

/-- One `Wire.read()` call on the receive buffer: returns the next byte, or
the sentinel `-1` when no data is buffered, plus the remaining buffer. -/
def wireReadInt : List ℕ → Int × List ℕ
  | [] => (-1, [])
  | b :: rest => ((b : Int), rest)

/-- Conversion of an `int` to `uint8_t` (two's-complement truncation mod 256);
the sentinel `-1` becomes `0xFF`. -/
def toUint8 (x : Int) : ℕ := (x % 256).toNat

/-- Embedding of the `ReceiveAddress` handler (`licd.cpp` lines 123-138).
`buf` is the receive buffer when the handler runs.  Returns the device state
after the handler and the bytes it wrote back on the bus:

    if ( Wire.available( ) ) {
        uint8_t command = Wire.read( );
        if ( command == LICD_COMMAND_UUID ) {
            Wire.write( 0x00 );
        } else if ( command == LICD_COMMAND_ASSIGN ) {
            m_address = Wire.read( );
            Create( m_receive, m_request );
        } else if ( command == LICD_COMMAND_RETRY ) {
        }
    }
    delay( 30 );
-/
def receiveAddress (dev : LicDevice) (buf : List ℕ) : LicDevice × List ℕ :=
  if 0 < buf.length then
    let r := wireReadInt buf
    let command := toUint8 r.1
    if command = LICD_COMMAND_UUID then
      (dev, [0x00])
    else if command = LICD_COMMAND_ASSIGN then
      let addr := toUint8 (wireReadInt r.2).1
      (⟨addr, addr, BoundHandlers.userHandlers⟩, [])
    else
      (dev, [])
  else
    (dev, [])

/-- Delivery of one inbound buffer to whichever receive handler the transport
currently has bound: the protocol handler `ReceiveAddress` while the internal
binding is active, the application handler (which does not touch the
protocol state) after the ASSIGN branch rebound the transport. -/
def deviceStep (dev : LicDevice) (buf : List ℕ) : LicDevice × List ℕ :=
  match dev.handlers with
  | BoundHandlers.internalHandlers => receiveAddress dev buf
  | BoundHandlers.userHandlers => (dev, [])

/-- Fold `deviceStep` over a sequence of inbound buffers. -/
def runDevice (dev : LicDevice) : List (List ℕ) → LicDevice
  | [] => dev
  | buf :: rest => runDevice (deviceStep dev buf).1 rest

/-! ## Lemmas about the probe loop -/

theorem doPollAux_zero_error (results : ℕ → ℕ) (rd : ℕ) :
    ∀ fuel i, doPollAux results rd 0 i fuel = (0, i, []) := by
  intro fuel i
  cases fuel with
  | zero => rfl
  | succ fuel => simp [doPollAux]

theorem doPollAux_attempts_le (results : ℕ → ℕ) (rd : ℕ) :
    ∀ fuel error i, (doPollAux results rd error i fuel).2.1 ≤ i + fuel := by
  intro fuel
  induction fuel with
  | zero => intro error i; simp [doPollAux]
  | succ fuel ih =>
      intro error i
      by_cases h : 0 < error
      · have := ih (results i) (i + 1)
        simp only [doPollAux, h, if_true]
        omega
      · simp only [doPollAux, h, if_false]
        omega

theorem doPollAux_ok_iff (results : ℕ → ℕ) (rd : ℕ) :
    ∀ fuel i error, 0 < error →
      ((doPollAux results rd error i fuel).1 = 0 ↔ ∃ k, k < fuel ∧ results (i + k) = 0) := by
  intro fuel
  induction fuel with
  | zero =>
      intro i error herr
      simp [doPollAux]
      omega
  | succ fuel ih =>
      intro i error herr
      simp only [doPollAux, herr, if_true]
      by_cases hz : results i = 0
      · rw [hz, doPollAux_zero_error]
        simp only [true_iff]
        exact ⟨0, by omega, by simpa using hz⟩
      · have hpos : 0 < results i := Nat.pos_of_ne_zero hz
        rw [ih (i + 1) (results i) hpos]
        constructor
        · rintro ⟨k, hk, hres⟩
          exact ⟨k + 1, by omega, by simpa [Nat.add_assoc, Nat.add_comm 1 k] using hres⟩
        · rintro ⟨k, hk, hres⟩
          cases k with
          | zero => exact absurd (by simpa using hres) hz
          | succ k =>
              exact ⟨k, by omega, by simpa [Nat.add_assoc, Nat.add_comm 1 k] using hres⟩

theorem doPollAux_first_ok (results : ℕ → ℕ) (rd : ℕ) :
    ∀ fuel i error, 0 < error →
      ∀ k, k < fuel → results (i + k) = 0 → (∀ j, j < k → results (i + j) ≠ 0) →
        (doPollAux results rd error i fuel).2.1 = i + k + 1 := by
  intro fuel
  induction fuel with
  | zero => intro i error _ k hk; omega
  | succ fuel ih =>
      intro i error herr k hk hres hfirst
      simp only [doPollAux, herr, if_true]
      cases k with
      | zero =>
          have hz : results i = 0 := by simpa using hres
          rw [hz, doPollAux_zero_error]
      | succ k =>
          have hnz : results i ≠ 0 := by
            have := hfirst 0 (by omega)
            simpa using this
          have hpos : 0 < results i := Nat.pos_of_ne_zero hnz
          have hres' : results (i + 1 + k) = 0 := by
            simpa [Nat.add_assoc, Nat.add_comm 1 k] using hres
          have hfirst' : ∀ j, j < k → results (i + 1 + j) ≠ 0 := by
            intro j hj
            have := hfirst (j + 1) (by omega)
            simpa [Nat.add_assoc, Nat.add_comm 1 j] using this
          have := ih (i + 1) (results i) hpos k (by omega) hres' hfirst'
          simp only [this]
          omega

theorem doPollAux_trace (results : ℕ → ℕ) (rd : ℕ) :
    ∀ fuel i error, ∃ n,
      (doPollAux results rd error i fuel).2.1 = i + n ∧
      (doPollAux results rd error i fuel).2.2 =
        (List.replicate n
          [BusEvent.txn LICD_LISTENER_ADDRESS [LICD_COMMAND_UUID], BusEvent.delayMs rd]).flatten := by
  intro fuel
  induction fuel with
  | zero => intro i error; exact ⟨0, by simp [doPollAux]⟩
  | succ fuel ih =>
      intro i error
      by_cases h : 0 < error
      · obtain ⟨n, hn, htr⟩ := ih (i + 1) (results i)
        refine ⟨n + 1, ?_, ?_⟩
        · simp only [doPollAux, h, if_true]
          omega
        · simp only [doPollAux, h, if_true, htr, List.replicate_succ, List.flatten]
          rfl
      · exact ⟨0, by simp [doPollAux, h]⟩

/-! ## Lemmas about the allocation loop and the poll cycle -/

/-- The allocation loop never terminates when slot 0 is occupied: the loop
body hits `continue` without ever incrementing `address_offset`, so the
state never changes. -/
theorem registerScanAux_stuck (header : LicDeviceHeader) (devices : DeviceRegistry)
    (h : 0 < (devices.getD 0 emptyHeader).uuid) :
    ∀ fuel, registerScanAux header devices LICD_LISTENER_ADDRESS 0 fuel = none := by
  intro fuel
  induction fuel with
  | zero => rfl
  | succ fuel ih =>
      simp only [registerScanAux]
      rw [if_pos (⟨trivial, by decide⟩ : True ∧ 0 < LICD_DEVICE_COUNT), if_pos h]
      exact ih

/-- When the probe succeeds, at least 8 bytes were pulled, and slot 0 of the
registry is occupied, the whole poll cycle diverges inside the allocation
loop: no fuel value lets it finish. -/
theorem pollDevice_none_of_slot0_occupied (mgr : LicDeviceManager) (results : ℕ → ℕ)
    (buf : List ℕ) (fuel : ℕ)
    (hprobe : DoPollDevice mgr results = true)
    (hlen : 8 ≤ buf.length)
    (hocc : 0 < ((mgr.m_devices).getD 0 emptyHeader).uuid) :
    PollDevice mgr results buf fuel = none := by
  have hread : WireHelper_read buf 1 8 150 = true := (WireHelper_read_eight_iff buf 150).mpr hlen
  have hreg : RegisterDevice mgr buf fuel = none := by
    unfold RegisterDevice
    simp [hread, registerScanAux_stuck _ _ hocc]
  unfold PollDevice
  simp [hprobe, hreg]

/-! ## Claim theorems -/

/-- C1 (counterexample).  The claim states that when the probe succeeds but
the 8-byte identity pull fails, no response command is transmitted.  On the
concrete input: empty registry, probe Ok on the first attempt, only 5 of the
8 expected bytes queued, the cycle nevertheless ends with a RETRY
transaction on the bus (`Wire.write( LICD_COMMAND_RETRY )`), because
`PollDevice` has no early return after a failed pull: `RegisterDevice`
returns the listener sentinel and the respond step runs. -/
theorem pollDevice_pull_fail_sends_retry_cex :
    PollDevice defaultManager (fun _ => 0) (List.replicate 5 0) 127 =
      some (defaultManager,
        [BusEvent.txn LICD_LISTENER_ADDRESS [LICD_COMMAND_UUID], BusEvent.delayMs 30,
         BusEvent.delayMs 15, BusEvent.requestFrom LICD_LISTENER_ADDRESS 8, BusEvent.delayMs 15,
         BusEvent.txn LICD_LISTENER_ADDRESS [LICD_COMMAND_RETRY]]) := by
  decide

/-- C1 (amended).  For every invocation of `PollDevice` in which the probe
succeeds but the 8-byte identity pull fails, the cycle performs no
registration (the registry is unchanged), transmits no ASSIGN command, but
does transmit the RETRY command as its final bus transaction. -/
theorem pull_failure_no_registration_but_retry (mgr : LicDeviceManager) (results : ℕ → ℕ)
    (buf : List ℕ) (fuel : ℕ)
    (hprobe : DoPollDevice mgr results = true)
    (hshort : buf.length < 8) :
    PollDevice mgr results buf fuel =
      some (mgr, doPollEvents mgr results ++ pullEvents mgr ++
        [BusEvent.txn LICD_LISTENER_ADDRESS [LICD_COMMAND_RETRY]])
    ∧ ∀ a, BusEvent.txn LICD_LISTENER_ADDRESS [LICD_COMMAND_ASSIGN, a]
        ∉ doPollEvents mgr results ++ pullEvents mgr ++
          [BusEvent.txn LICD_LISTENER_ADDRESS [LICD_COMMAND_RETRY]] := by
  have hread : WireHelper_read buf 1 8 150 = false := by
    rw [← Bool.not_eq_true, WireHelper_read_eight_iff]
    omega
  have hreg : RegisterDevice mgr buf fuel =
      some (LICD_LISTENER_ADDRESS, mgr.m_devices, pullEvents mgr) := by
    unfold RegisterDevice
    simp [hread]
  have hresp : respondTxn LICD_LISTENER_ADDRESS =
      BusEvent.txn LICD_LISTENER_ADDRESS [LICD_COMMAND_RETRY] := by decide
  constructor
  · unfold PollDevice
    simp [hprobe, hreg, hresp]
  · intro a
    obtain ⟨n, _, htr⟩ := doPollAux_trace results mgr.m_retry_delay mgr.m_retry_count 0 5
    simp only [doPollEvents, htr, List.mem_append, List.mem_flatten, List.mem_replicate,
      pullEvents, List.mem_cons]
    rintro (⟨l, ⟨-, rfl⟩, hmem⟩ | h | h) <;> simp_all

/-- C1 (witness for the amended theorem): concrete instance with the default
manager, a probe that succeeds immediately, and a 5-byte pull. -/
theorem pull_failure_no_registration_but_retry_witness :
    PollDevice defaultManager (fun _ => 0) (List.replicate 5 0) 200 =
      some (defaultManager, doPollEvents defaultManager (fun _ => 0) ++ pullEvents defaultManager ++
        [BusEvent.txn LICD_LISTENER_ADDRESS [LICD_COMMAND_RETRY]]) :=
  (pull_failure_no_registration_but_retry defaultManager (fun _ => 0) (List.replicate 5 0) 200
    (by decide) (by decide)).1

/-- C2 (code bug).  The claim says the allocation scans slots in ascending
order 0..125 and, with free slots at indices starting from 2, picks index 2.
In the source (`licd.cpp` lines 81-88) `address_offset` is never
incremented: with slots 0 and 1 occupied and slot 2 free the loop hits
`continue` at offset 0 forever, so the scan never terminates and index 2 is
never allocated, for any iteration budget. -/
theorem allocation_never_reaches_slot_two (header : LicDeviceHeader) (fuel : ℕ) :
    registerScanAux header ((initRegistry.set 0 ⟨0xA1, 0⟩).set 1 ⟨0xA2, 0⟩)
      LICD_LISTENER_ADDRESS 0 fuel = none :=
  registerScanAux_stuck header _ (by decide) fuel

/-- C3 (code bug).  The claim says a `PollDevice` invocation always
terminates.  With one registered device in slot 0 (uuid 9), a probe that
succeeds immediately and a complete 8-byte pull, the allocation loop spins
forever on `continue` (no increment of `address_offset`), so the cycle never
completes for any iteration budget. -/
theorem pollDevice_diverges_slot0_occupied (fuel : ℕ) :
    PollDevice { defaultManager with m_devices := initRegistry.set 0 ⟨9, 0⟩ }
      (fun _ => 0) (List.replicate 8 0) fuel = none :=
  pollDevice_none_of_slot0_occupied _ _ _ fuel (by decide) (by decide) (by decide)

/-- C4 (code bug).  The claim says that with all 126 slots occupied the cycle
emits RETRY and leaves the registry unchanged.  In the source the allocation
loop already diverges at the occupied slot 0 (no increment of
`address_offset`), so the respond step is never reached and no RETRY is ever
emitted: the cycle never returns, for any iteration budget. -/
theorem pollDevice_diverges_registry_full (fuel : ℕ) :
    PollDevice { defaultManager with m_devices := List.replicate 126 ⟨1, 0⟩ }
      (fun _ => 0) (List.replicate 8 0) fuel = none :=
  pollDevice_none_of_slot0_occupied _ _ _ fuel (by decide) (by decide) (by decide)

/-- C5 (code bug).  The claim says a Listening slave that receives the UUID
query produces the 8-byte `{uuid, flags}` identity record and stays
Listening.  The handler (`licd.cpp` line 128) writes a single `0x00` byte:
the reply has length 1, not 8, and carries no uuid at all (the device state
is unchanged, so it does stay Listening). -/
theorem uuid_query_reply_is_single_zero_byte :
    receiveAddress LicDevice.init [LICD_COMMAND_UUID] = (LicDevice.init, [0x00])
    ∧ (receiveAddress LicDevice.init [LICD_COMMAND_UUID]).2.length ≠ 8 := by
  decide

/-- C6 (confirmed).  The probe step performs at most `retry_count`
transactions, each a single UUID command byte to the listener address
followed by a `retry_delay` wait; it stops right after the first attempt
returning Ok; `DoPollDevice` returns true iff some attempt within
`retry_count` returned Ok; and when none did, the cycle aborts with no
further action: the registry is unchanged and only the probe events were
emitted. -/
theorem probe_retry_contract (mgr : LicDeviceManager) (results : ℕ → ℕ) :
    doPollAttempts mgr results ≤ mgr.m_retry_count
    ∧ (DoPollDevice mgr results = true ↔ ∃ i, i < mgr.m_retry_count ∧ results i = 0)
    ∧ (∀ i, i < mgr.m_retry_count → results i = 0 → (∀ j, j < i → results j ≠ 0) →
        doPollAttempts mgr results = i + 1)
    ∧ doPollEvents mgr results =
        (List.replicate (doPollAttempts mgr results)
          [BusEvent.txn LICD_LISTENER_ADDRESS [LICD_COMMAND_UUID],
           BusEvent.delayMs mgr.m_retry_delay]).flatten
    ∧ (DoPollDevice mgr results = false →
        ∀ buf fuel, PollDevice mgr results buf fuel = some (mgr, doPollEvents mgr results)) := by
  refine ⟨?_, ?_, ?_, ?_, ?_⟩
  · have := doPollAux_attempts_le results mgr.m_retry_delay mgr.m_retry_count 5 0
    simpa [doPollAttempts] using this
  · have := doPollAux_ok_iff results mgr.m_retry_delay mgr.m_retry_count 0 5 (by omega)
    simpa [DoPollDevice] using this
  · intro i hi hres hfirst
    have := doPollAux_first_ok results mgr.m_retry_delay mgr.m_retry_count 0 5 (by omega)
      i hi (by simpa using hres) (by simpa using hfirst)
    simpa [doPollAttempts] using this
  · obtain ⟨n, hn, htr⟩ := doPollAux_trace results mgr.m_retry_delay mgr.m_retry_count 0 5
    have hn' : doPollAttempts mgr results = n := by simpa [doPollAttempts] using hn
    simpa [doPollEvents, hn'] using htr
  · intro hfail buf fuel
    unfold PollDevice
    simp [hfail]

/-- C6 (witness): with the default configuration and a bus on which the first
attempt fails with NACK and the second returns Ok, exactly two probe
attempts are performed. -/
theorem probe_retry_contract_witness :
    doPollAttempts (mkManager 5 30 15) (fun i => if i = 0 then 2 else 0) = 2 :=
  (probe_retry_contract (mkManager 5 30 15) (fun i => if i = 0 then 2 else 0)).2.2.1 1
    (by decide) (by simp)
    (by
      intro j hj
      have hj0 : j = 0 := by omega
      subst hj0
      simp)

/-- C7 (counterexample).  The claim states `WireHelper::read` with an 8-byte
record returns false whenever more bytes than expected arrive.  With 9 bytes
available the copy loop stops after 8 bytes (`data_offset < data_size`
fails) and the size check `data_offset == data_size` passes, so the read
returns true. -/
theorem read_true_on_surplus_bytes :
    WireHelper_read (List.replicate 9 0) 1 8 150 = true
    ∧ (List.replicate 9 (0 : ℕ)).length ≠ 8 := by
  decide

/-- C7 (amended).  The header pull fails exactly when fewer than 8 bytes are
available before the wait gives up: `WireHelper::read` with an 8-byte record
returns true iff at least 8 bytes arrived; surplus bytes beyond the 8
expected are left unread and do not make the read fail. -/
theorem read_succeeds_iff_at_least_eight (buf : List ℕ) :
    WireHelper_read buf 1 8 150 = true ↔ 8 ≤ buf.length :=
  WireHelper_read_eight_iff buf 150

/-! ## Lemmas about the slave state machine -/

/-- Once the transport is bound to the application handlers, the protocol
handler `ReceiveAddress` is detached and no inbound buffer changes the
device state. -/
theorem runDevice_user_fixed :
    ∀ (cmds : List (List ℕ)) (dev : LicDevice),
      dev.handlers = BoundHandlers.userHandlers → runDevice dev cmds = dev := by
  intro cmds
  induction cmds with
  | nil => intro dev _; rfl
  | cons buf rest ih =>
      intro dev h
      have hstep : deviceStep dev buf = (dev, []) := by
        unfold deviceStep
        rw [h]
      unfold runDevice
      rw [hstep]
      exact ih dev h

/-- Each invocation of `ReceiveAddress` either leaves the device state
untouched or exits through the ASSIGN branch, which rebinds the transport to
the application handlers. -/
theorem receiveAddress_cases (dev : LicDevice) (buf : List ℕ) :
    (receiveAddress dev buf).1 = dev
    ∨ (receiveAddress dev buf).1.handlers = BoundHandlers.userHandlers := by
  unfold receiveAddress
  by_cases hb : 0 < buf.length
  · simp only [hb, if_true]
    by_cases hq : toUint8 (wireReadInt buf).1 = LICD_COMMAND_UUID
    · simp [hq]
    · by_cases ha : toUint8 (wireReadInt buf).1 = LICD_COMMAND_ASSIGN
      · simp [hq, ha, LICD_COMMAND_UUID, LICD_COMMAND_ASSIGN]
      · simp [hq, ha]
  · simp [hb]

/-- While the internal `ReceiveAddress` handler is still bound, the device
address is still the listener address: every state `ReceiveAddress` leaves
with the internal binding has an unchanged address, and the ASSIGN branch
that changes the address also rebinds to the user handlers. -/
theorem runDevice_internal_listener :
    ∀ (cmds : List (List ℕ)) (dev : LicDevice),
      (dev.handlers = BoundHandlers.internalHandlers → dev.m_address = LICD_LISTENER_ADDRESS) →
      ((runDevice dev cmds).handlers = BoundHandlers.internalHandlers →
        (runDevice dev cmds).m_address = LICD_LISTENER_ADDRESS) := by
  intro cmds
  induction cmds with
  | nil => intro dev h; exact h
  | cons buf rest ih =>
      intro dev h
      unfold runDevice
      refine ih (deviceStep dev buf).1 ?_
      intro hin
      cases hdev : dev.handlers with
      | userHandlers =>
          have hstep : deviceStep dev buf = (dev, []) := by
            unfold deviceStep
            rw [hdev]
          rw [hstep] at hin ⊢
          exact h hin
      | internalHandlers =>
          have hstep : (deviceStep dev buf).1 = (receiveAddress dev buf).1 := by
            unfold deviceStep
            rw [hdev]
          rw [hstep] at hin ⊢
          rcases receiveAddress_cases dev buf with hsame | huser
          · rw [hsame] at hin ⊢
            exact h hin
          · rw [huser] at hin
            simp at hin

/-- C8 (confirmed).  Once a slave reaches the Assigned state
(`GetIsValid`), no further inbound commands are handled by the protocol:
the ASSIGN branch rebound the transport to the application handlers
(`Create( m_receive, m_request )`), so every subsequent command sequence
leaves the device state, and in particular `m_address`, unchanged — the
device never returns to Listening within the session. -/
theorem assigned_state_is_terminal (cmds more : List (List ℕ))
    (h : (runDevice LicDevice.init cmds).GetIsValid = true) :
    runDevice (runDevice LicDevice.init cmds) more = runDevice LicDevice.init cmds
    ∧ (runDevice (runDevice LicDevice.init cmds) more).GetIsValid = true := by
  have hinit : LicDevice.init.handlers = BoundHandlers.internalHandlers →
      LicDevice.init.m_address = LICD_LISTENER_ADDRESS := fun _ => rfl
  have hinv := runDevice_internal_listener cmds LicDevice.init hinit
  have huser : (runDevice LicDevice.init cmds).handlers = BoundHandlers.userHandlers := by
    cases hh : (runDevice LicDevice.init cmds).handlers with
    | userHandlers => rfl
    | internalHandlers =>
        have haddr := hinv hh
        rw [LicDevice.GetIsValid, haddr] at h
        simp at h
  have hfix := runDevice_user_fixed more _ huser
  exact ⟨hfix, by rw [hfix]; exact h⟩

/-- C8 (witness): a slave assigned address 7 stays at address 7 and valid
under a subsequent ASSIGN(1), UUID and RETRY. -/
theorem assigned_state_is_terminal_witness :
    runDevice (runDevice LicDevice.init [[2, 7]]) [[2, 1], [1], [3]] =
      runDevice LicDevice.init [[2, 7]]
    ∧ (runDevice (runDevice LicDevice.init [[2, 7]]) [[2, 1], [1], [3]]).GetIsValid = true :=
  assigned_state_is_terminal [[2, 7]] [[2, 1], [1], [3]] (by decide)

/-- C9 (confirmed).  `RegisterDevice` copies a pulled header with
`uuid == 0` into the first free slot without any non-zero check; the slot
then still satisfies the freeness criterion (`uuid == 0`), so a second poll
cycle with a different zero-uuid identity (different flags) allocates the
very same slot 0 and transmits the very same address 0x02. -/
theorem zero_uuid_header_slot_reused :
    PollDevice defaultManager (fun _ => 0) [0, 0, 0, 0, 1, 0, 0, 0] 127 =
      some ({ defaultManager with m_devices := initRegistry.set 0 ⟨0, 1⟩ },
        [BusEvent.txn LICD_LISTENER_ADDRESS [LICD_COMMAND_UUID], BusEvent.delayMs 30,
         BusEvent.delayMs 15, BusEvent.requestFrom LICD_LISTENER_ADDRESS 8, BusEvent.delayMs 15,
         BusEvent.txn LICD_LISTENER_ADDRESS [LICD_COMMAND_ASSIGN, LICD_ADDRESS_SPACE]])
    ∧ ((initRegistry.set 0 ⟨0, 1⟩).getD 0 emptyHeader).uuid = 0
    ∧ PollDevice { defaultManager with m_devices := initRegistry.set 0 ⟨0, 1⟩ }
        (fun _ => 0) [0, 0, 0, 0, 2, 0, 0, 0] 127 =
      some ({ defaultManager with m_devices := initRegistry.set 0 ⟨0, 2⟩ },
        [BusEvent.txn LICD_LISTENER_ADDRESS [LICD_COMMAND_UUID], BusEvent.delayMs 30,
         BusEvent.delayMs 15, BusEvent.requestFrom LICD_LISTENER_ADDRESS 8, BusEvent.delayMs 15,
         BusEvent.txn LICD_LISTENER_ADDRESS [LICD_COMMAND_ASSIGN, LICD_ADDRESS_SPACE]]) := by
  decide

/-- C10 (confirmed).  A Listening slave receiving an ASSIGN command with no
payload byte buffered still calls `Wire.read()`: the no-data sentinel `-1`
truncates to `0xFF` on assignment to the `uint8_t` member, so the slave
adopts address 0xFF — outside the assignable space 0x02..0x7F — rebinds the
transport to it, and `GetIsValid()` reports true. -/
theorem assign_without_payload_adopts_ff :
    wireReadInt [] = (-1, [])
    ∧ toUint8 (-1) = 0xFF
    ∧ receiveAddress LicDevice.init [LICD_COMMAND_ASSIGN] =
        (⟨0xFF, 0xFF, BoundHandlers.userHandlers⟩, [])
    ∧ LicDevice.GetIsValid ⟨0xFF, 0xFF, BoundHandlers.userHandlers⟩ = true
    ∧ ¬ (LICD_ADDRESS_SPACE ≤ 0xFF ∧ 0xFF ≤ 0x7F) := by
  decide

end LICD
